import Mathlib

/-!
Shallow embedding of `reg.go` (package `reg`), a thin typed wrapper over the
Windows registry.  The registry store backing one open key is modelled as a
`KeyState`: the list of subkey names, the list of named tagged values, the
status codes the platform would return for `RegQueryInfoKey` and
`RegSetValueExW`, and the bytes of stack memory adjacent to the 1024-byte
local buffer used by `regValue` (read out of bounds by `StringValue`'s
pointer cast).  Bytes are `Nat` (< 256 in any state produced by the code),
machine integers are `Nat` with explicit bounds, and Go's `(T, error)`
returns together with `panic`/`log.Fatal` become the `Outcome` type.
-/

namespace Reg

/-- Registry value-type tag `REG_SZ` (UTF-16 string), the `syscall` constant. -/
def REG_SZ : Nat := 1

/-- Registry value-type tag `REG_BINARY`, the `syscall` constant. -/
def REG_BINARY : Nat := 3

/-- Registry value-type tag `REG_DWORD` (4-byte little-endian), the `syscall` constant. -/
def REG_DWORD : Nat := 4

/-- A stored registry value: its type tag and its raw bytes. -/
structure RegVal where
  tag : Nat
  data : List Nat
  deriving Repr, DecidableEq

/-- The errors the Go code can return: platform errors surfaced by
`RegQueryValueEx` (`ERROR_FILE_NOT_FOUND`, `ERROR_MORE_DATA`), the
`fmt.Errorf` values built by the accessors, the `io` errors `binary.Read`
returns on short data, and the nonzero status wrapped by `SetDWordValue`. -/
inductive RegError where
  | fileNotFound
  | moreData
  | typeMismatch (msg : String)
  | valueRange (msg : String)
  | eof
  | unexpectedEOF
  | platformSet (ret : Nat)
  deriving Repr, DecidableEq

/-- Result of one call: a normal return, a returned (recoverable) Go `error`,
or process abortion (`panic` / `log.Fatal`). -/
inductive Outcome (α : Type) where
  | ok (a : α)
  | error (e : RegError)
  | abort
  deriving Repr, DecidableEq

/-- The registry state behind one open key, together with the platform's
behaviour for the calls the code makes.  `queryInfoStatus`/`setStatus` are the
status codes `RegQueryInfoKey`/`RegSetValueExW` would return (0 = success).
`stackJunk` gives the bytes that sit beyond the 1024-byte `data` buffer of
`regValue` on the stack. -/
structure KeyState where
  subkeys : List String
  values : List (String × RegVal)
  queryInfoStatus : Nat
  setStatus : Nat
  stackJunk : Nat → Nat

/-- Lookup of a named value in the key's value list (the registry guarantees
value names are unique under a key). -/
def lookupValue (vs : List (String × RegVal)) (name : String) : Option RegVal :=
  (vs.find? (fun p => p.1 == name)).map Prod.snd

/-- The platform's `RegSetValueExW`: replace the named value or append it. -/
def setValue : List (String × RegVal) → String → RegVal → List (String × RegVal)
  | [], name, v => [(name, v)]
  | p :: rest, name, v =>
      if p.1 = name then (name, v) :: rest else p :: setValue rest name v

/-- Embeds `RegKey.regValue`: `RegQueryValueEx` against a 1024-byte local
buffer.  A missing name yields `ERROR_FILE_NOT_FOUND`; data larger than the
buffer yields `ERROR_MORE_DATA`; otherwise the value's bytes and tag. -/
def regValue (st : KeyState) (name : String) : Outcome (List Nat × Nat) :=
  match lookupValue st.values name with
  | none => .error .fileNotFound
  | some v => if 1024 < v.data.length then .error .moreData else .ok (v.data, v.tag)

/-- Little-endian decode of the first four bytes, as `binary.Read` with
`binary.LittleEndian` into a `uint32` does. -/
def fromLE4 (d : List Nat) : Nat :=
  d.getD 0 0 + 256 * d.getD 1 0 + 65536 * d.getD 2 0 + 16777216 * d.getD 3 0

/-- Little-endian encode of a `uint32`, as `binary.Write` with
`binary.LittleEndian` does. -/
def uint32LE (v : Nat) : List Nat :=
  [v % 256, v / 256 % 256, v / 65536 % 256, v / 16777216 % 256]

/-- Embeds `RegKey.DWordValue`: read the raw value, require the `REG_DWORD`
tag, then `binary.Read` a little-endian `uint32` (which returns `io.EOF` on
empty data and `io.ErrUnexpectedEOF` on fewer than 4 bytes). -/
def DWordValue (st : KeyState) (name : String) : Outcome Nat :=
  match regValue st name with
  | .error e => .error e
  | .abort => .abort
  | .ok (d, typ) =>
    if typ ≠ REG_DWORD then .error (.typeMismatch "Registry key not a DWORD")
    else if d.length = 0 then .error .eof
    else if d.length < 4 then .error .unexpectedEOF
    else .ok (fromLE4 d)

/-- Embeds `RegKey.SetDWordValue`: encode `val` little-endian and call
`RegSetValueExW` with the `REG_DWORD` tag; a nonzero status is wrapped in an
error and the store is unchanged, otherwise the platform replaces the value. -/
def SetDWordValue (st : KeyState) (name : String) (val : Nat) :
    KeyState × Outcome Unit :=
  if st.setStatus ≠ 0 then (st, .error (.platformSet st.setStatus))
  else ({ st with values := setValue st.values name ⟨REG_DWORD, uint32LE val⟩ }, .ok ())

/-- Embeds `binary.Uvarint`'s loop: `i` is the byte index, `x` the
accumulator, `s` the shift.  Returns the decoded value and the byte count
`n` (`0`: buffer exhausted before a terminating byte; negative: overflow). -/
def uvarintLoop : List Nat → Nat → Nat → Nat → Nat × Int
  | [], _, _, _ => (0, 0)
  | b :: rest, i, x, s =>
    if i = 10 then (0, -11)
    else if b < 128 then
      if i = 9 ∧ 1 < b then (0, -10)
      else (x + b * 2 ^ s, (i : Int) + 1)
    else uvarintLoop rest (i + 1) (x + b % 128 * 2 ^ s) (s + 7)

/-- Embeds `binary.Uvarint` on a byte slice. -/
def uvarint (d : List Nat) : Nat × Int := uvarintLoop d 0 0 0

/-- Embeds `RegKey.BoolValue`: read the raw value, require the `REG_DWORD`
tag, decode the bytes with `binary.Uvarint`, reject only a negative byte
count or a decoded value above 1, and return whether the value is 1. -/
def BoolValue (st : KeyState) (name : String) : Outcome Bool :=
  match regValue st name with
  | .error e => .error e
  | .abort => .abort
  | .ok (d, t) =>
    if t ≠ REG_DWORD then .error (.typeMismatch "Registry key not a DWORD")
    else
      let p := uvarint d
      if p.2 < 0 ∨ 1 < p.1 then .error (.valueRange "Value not a bool")
      else .ok (p.1 == 1)

/-- The memory `StringValue`'s cast `(*[1 << 10]uint16)(unsafe.Pointer(&d[0]))`
reads from: byte `i` is the value's own byte for `i < d.length`, a zero byte
of the zero-initialised 1024-byte `data` array up to index 1023, and adjacent
stack memory (`junk`) beyond the array. -/
def stringBuffer (d : List Nat) (junk : Nat → Nat) : Nat → Nat :=
  fun i => if i < d.length then d.getD i 0 else if i < 1024 then 0 else junk i

/-- The 1024 `uint16` code units the cast produces, reading bytes 0..2047 of
`mem` in little-endian pairs. -/
def stringUnits (mem : Nat → Nat) : List Nat :=
  (List.range 1024).map fun i => mem (2 * i) + 256 * mem (2 * i + 1)

/-- Embeds `utf16.Decode`: code units to code points, pairing surrogates and
replacing lone surrogates with U+FFFD. -/
def utf16Decode : List Nat → List Nat
  | [] => []
  | r :: rest =>
    if r < 0xD800 ∨ 0xE000 ≤ r then r :: utf16Decode rest
    else if r < 0xDC00 then
      match rest with
      | [] => [0xFFFD]
      | r2 :: rest2 =>
        if 0xDC00 ≤ r2 ∧ r2 < 0xE000 then
          ((r - 0xD800) * 1024 + (r2 - 0xDC00) + 0x10000) :: utf16Decode rest2
        else 0xFFFD :: utf16Decode (r2 :: rest2)
    else 0xFFFD :: utf16Decode rest

/-- Embeds `syscall.UTF16ToString`: truncate at the first NUL unit and decode;
native text is modelled as the list of decoded code points. -/
def utf16ToString (units : List Nat) : List Nat :=
  utf16Decode (units.takeWhile (fun v => v != 0))

/-- Embeds `RegKey.StringValue`: read the raw value, require the `REG_SZ` tag,
then take `&d[0]` — which panics (aborts) when the returned data is empty —
and decode the 1024 units of the reinterpreted fixed-size buffer. -/
def StringValue (st : KeyState) (name : String) : Outcome (List Nat) :=
  match regValue st name with
  | .error e => .error e
  | .abort => .abort
  | .ok (d, t) =>
    if t ≠ REG_SZ then .error (.typeMismatch "Registry key not a string")
    else if d.length = 0 then .abort
    else .ok (utf16ToString (stringUnits (stringBuffer d st.stackJunk)))

/-- Decode of a value's own bytes: the buffer completed with zeros, no stack
junk.  Named so that theorems can say when `StringValue`'s result is a
function of the stored bytes alone. -/
def stringDecodeOfData (d : List Nat) : List Nat :=
  utf16ToString (stringUnits (stringBuffer d (fun _ => 0)))

/-- Embeds `RegKey.SubKeys`: a failing `RegQueryInfoKey` panics (aborts); a
`RegEnumKeyEx` failure inside the loop — a name that cannot fit the
1024-`uint16` buffer with its terminator — also panics; otherwise the subkey
names are returned in order. -/
def SubKeys (st : KeyState) : Outcome (List String) :=
  if st.queryInfoStatus ≠ 0 then .abort
  else if st.subkeys.any (fun s => 1023 < s.length) then .abort
  else .ok st.subkeys

/-- The `switch typ` of `RegKey.Values`: the coarse label for a tag, `none`
for tags the switch does not handle. -/
def valueLabel (tag : Nat) : Option String :=
  if tag = REG_SZ then some "string"
  else if tag = REG_DWORD then some "uint32"
  else if tag = REG_BINARY then some "binary"
  else none

/-- The loop of `RegKey.Values`, building the Go map (modelled as a function
`String → Option String`): each enumerated value with a recognised tag is
inserted with its label, others leave the map unchanged. -/
def valuesFold (vs : List (String × RegVal)) (m : String → Option String) :
    String → Option String :=
  vs.foldl
    (fun m v =>
      match valueLabel v.2.tag with
      | some lbl => fun kk => if kk = v.1 then some lbl else m kk
      | none => m)
    m

/-- Embeds `RegKey.Values`: a failing `RegQueryInfoKey` calls `log.Fatal`
(aborts); a `RegEnumValueW` failure inside the loop — a name or data block
that cannot fit its 1024-element buffer — panics; otherwise the map from
value name to coarse type label is built. -/
def Values (st : KeyState) : Outcome (String → Option String) :=
  if st.queryInfoStatus ≠ 0 then .abort
  else if st.values.any (fun v => 1023 < v.1.length ∨ 1024 < v.2.data.length) then .abort
  else .ok (valuesFold st.values (fun _ => none))

/-! Concrete key states used to instantiate theorems with hypotheses. -/

/-- A key with no subkeys and no values, every platform call succeeding. -/
def emptySt : KeyState := ⟨[], [], 0, 0, fun _ => 0⟩

/-- A key whose platform rejects `RegSetValueExW` with status 5. -/
def failSetSt : KeyState := ⟨[], [], 0, 5, fun _ => 0⟩

/-- A key whose platform fails `RegQueryInfoKey` with status 7. -/
def failQuerySt : KeyState := ⟨[], [], 7, 0, fun _ => 0⟩

/-- A key holding one `REG_DWORD`-tagged value with empty data. -/
def emptyDwordSt : KeyState := ⟨[], [("x", ⟨REG_DWORD, []⟩)], 0, 0, fun _ => 0⟩

/-- A key holding one `REG_DWORD`-tagged value whose single byte decodes to 2. -/
def twoSt : KeyState := ⟨[], [("b", ⟨REG_DWORD, [2]⟩)], 0, 0, fun _ => 0⟩

/-! Supporting lemmas. -/

/-- After `setValue`, looking the written name up finds the written value. -/
lemma lookup_setValue_self (vs : List (String × RegVal)) (name : String) (v : RegVal) :
    lookupValue (setValue vs name v) name = some v := by
  induction vs with
  | nil => simp [setValue, lookupValue]
  | cons p rest ih =>
    by_cases h : p.1 = name
    · simp [setValue, h, lookupValue]
    · have hb : (p.1 == name) = false := by simp [h]
      simp only [setValue, h, if_false, lookupValue, List.find?_cons, hb]
      exact ih

/-! Claim theorems. -/

/-- C8: for every open key that has zero subkeys (and a succeeding
`RegQueryInfoKey`), `SubKeys()` returns the empty sequence without failing. -/
theorem subKeys_empty (st : KeyState) (hq : st.queryInfoStatus = 0)
    (hs : st.subkeys = []) : SubKeys st = .ok [] := by
  simp [SubKeys, hq, hs]

/-- Witness for C8 at the concrete empty key. -/
theorem subKeys_empty_witness : SubKeys emptySt = .ok [] :=
  subKeys_empty emptySt rfl rfl

/-- C5: the typed accessors surface platform failures as returned
(recoverable) errors — `DWordValue`, `BoolValue` and `StringValue` propagate
any error of the underlying `RegQueryValueEx`, and `SetDWordValue` wraps a
nonzero `RegSetValueExW` status — while the enumerations `SubKeys` and
`Values` abort the process (panic, resp. `log.Fatal`) when the underlying
`RegQueryInfoKey` fails. -/
theorem error_propagation_policy :
    (∀ st name e, regValue st name = .error e →
      DWordValue st name = .error e ∧ BoolValue st name = .error e ∧
        StringValue st name = .error e) ∧
    (∀ st name v, st.setStatus ≠ 0 →
      (SetDWordValue st name v).2 = .error (.platformSet st.setStatus)) ∧
    (∀ st, st.queryInfoStatus ≠ 0 → SubKeys st = .abort ∧ Values st = .abort) := by
  refine ⟨fun st name e h => ?_, fun st name v h => ?_, fun st h => ?_⟩
  · exact ⟨by simp [DWordValue, h], by simp [BoolValue, h], by simp [StringValue, h]⟩
  · simp [SetDWordValue, h]
  · exact ⟨by simp [SubKeys, h], by simp [Values, h]⟩

/-- Witness for C5: a missing name is returned as an error by `DWordValue`, a
failing write status is returned as an error, and a failing info query makes
`SubKeys` abort. -/
theorem error_propagation_policy_witness :
    DWordValue emptySt "missing" = .error .fileNotFound ∧
    (SetDWordValue failSetSt "n" 7).2 = .error (.platformSet 5) ∧
    SubKeys failQuerySt = .abort := by
  refine ⟨(error_propagation_policy.1 emptySt "missing" .fileNotFound rfl).1,
    ?_, (error_propagation_policy.2.2 failQuerySt (by decide)).1⟩
  have h := error_propagation_policy.2.1 failSetSt "n" 7 (by decide)
  exact h

/-- C2: writing any `v < 2^32` with `SetDWordValue` (on a platform that
accepts the write) and reading the same name back with `DWordValue` returns
`v`: the 4-byte little-endian encoding stored under the `REG_DWORD` tag
decodes to the same `uint32`. -/
theorem setDWord_then_dword_roundtrip (st : KeyState) (name : String) (v : Nat)
    (hv : v < 4294967296) (hset : st.setStatus = 0) :
    DWordValue (SetDWordValue st name v).1 name = .ok v := by
  have hlk :
      lookupValue (SetDWordValue st name v).1.values name =
        some ⟨REG_DWORD, uint32LE v⟩ := by
    simp [SetDWordValue, hset]
    exact lookup_setValue_self st.values name ⟨REG_DWORD, uint32LE v⟩
  simp [DWordValue, regValue, hlk, uint32LE, REG_DWORD, fromLE4]
  omega

/-- Witness for C2 at a concrete value. -/
theorem setDWord_then_dword_roundtrip_witness :
    DWordValue (SetDWordValue emptySt "d" 305419896).1 "d" = .ok 305419896 :=
  setDWord_then_dword_roundtrip emptySt "d" 305419896 (by decide) rfl

/-- C7: writing the DWORD value 1 with `SetDWordValue` (on a platform that
accepts the write) and reading the same name with `BoolValue` returns `true`:
the stored bytes `01 00 00 00` decode to 1 under `binary.Uvarint`. -/
theorem set_one_boolValue_true (st : KeyState) (name : String)
    (hset : st.setStatus = 0) :
    BoolValue (SetDWordValue st name 1).1 name = .ok true := by
  have hlk :
      lookupValue (SetDWordValue st name 1).1.values name =
        some ⟨REG_DWORD, uint32LE 1⟩ := by
    simp [SetDWordValue, hset]
    exact lookup_setValue_self st.values name ⟨REG_DWORD, uint32LE 1⟩
  simp [BoolValue, regValue, hlk]
  norm_num [uint32LE, uvarint, uvarintLoop, REG_DWORD]

/-- Witness for C7 at the concrete empty key. -/
theorem set_one_boolValue_true_witness :
    BoolValue (SetDWordValue emptySt "e" 1).1 "e" = .ok true :=
  set_one_boolValue_true emptySt "e" rfl

/-- C4: `DWordValue` returns `ERROR_FILE_NOT_FOUND` when no value of the name
exists under the key, a `TypeMismatchError` when the stored tag is not
`REG_DWORD`, and otherwise decodes the stored bytes as a 4-byte little-endian
unsigned integer (`fromLE4` reads exactly bytes 0..3). -/
theorem dwordValue_spec :
    (∀ st name, lookupValue st.values name = none →
      DWordValue st name = .error .fileNotFound) ∧
    (∀ st name tag d, lookupValue st.values name = some ⟨tag, d⟩ →
      d.length ≤ 1024 → tag ≠ REG_DWORD →
      DWordValue st name = .error (.typeMismatch "Registry key not a DWORD")) ∧
    (∀ st name d, lookupValue st.values name = some ⟨REG_DWORD, d⟩ →
      d.length ≤ 1024 → 4 ≤ d.length → DWordValue st name = .ok (fromLE4 d)) := by
  refine ⟨fun st name h => ?_, fun st name tag d h hlen htag => ?_,
    fun st name d h hlen h4 => ?_⟩
  · simp [DWordValue, regValue, h]
  · simp [DWordValue, regValue, h, Nat.not_lt.mpr hlen, htag]
  · simp [DWordValue, regValue, h, Nat.not_lt.mpr hlen, Nat.not_lt.mpr h4,
      show d.length ≠ 0 by omega]

/-- Witness for C4: a key with a string-tagged value `s`, a DWORD value `d`
storing `01 00 00 00`, and no value named `missing`. -/
theorem dwordValue_spec_witness :
    DWordValue (⟨[], [("s", ⟨REG_SZ, [65, 0]⟩), ("d", ⟨REG_DWORD, [1, 0, 0, 0]⟩)],
        0, 0, fun _ => 0⟩ : KeyState) "missing" = .error .fileNotFound ∧
    DWordValue (⟨[], [("s", ⟨REG_SZ, [65, 0]⟩), ("d", ⟨REG_DWORD, [1, 0, 0, 0]⟩)],
        0, 0, fun _ => 0⟩ : KeyState) "s" =
      .error (.typeMismatch "Registry key not a DWORD") ∧
    DWordValue (⟨[], [("s", ⟨REG_SZ, [65, 0]⟩), ("d", ⟨REG_DWORD, [1, 0, 0, 0]⟩)],
        0, 0, fun _ => 0⟩ : KeyState) "d" = .ok (fromLE4 [1, 0, 0, 0]) := by
  refine ⟨dwordValue_spec.1 _ "missing" rfl,
    dwordValue_spec.2.1 _ "s" REG_SZ [65, 0] rfl (by decide) (by decide),
    dwordValue_spec.2.2 _ "d" [1, 0, 0, 0] rfl (by decide) (by decide)⟩

/-- C1 counterexample: a `REG_DWORD`-tagged value with empty data.  On empty
input `binary.Uvarint` reads zero bytes — its documented "buffer too small"
failure, `n = 0` — yet `BoolValue` only rejects `n < 0`, so instead of
failing with a `ValueRangeError` it succeeds and returns `false`. -/
theorem boolValue_truncated_varint_succeeds_cex :
    (uvarint []).2 = 0 ∧ BoolValue emptyDwordSt "x" = .ok false := by
  constructor
  · rfl
  · rfl

/-- C1 amended: on a `REG_DWORD`-tagged value, `BoolValue` fails with
`ValueRangeError` exactly when `binary.Uvarint` reports overflow (negative
byte count) or a decoded value above 1; otherwise it succeeds with the test
`decoded = 1` — in particular an empty or truncated varint (byte count 0,
decoded value 0) succeeds with `false` rather than failing. -/
theorem boolValue_range_amended (st : KeyState) (name : String) (d : List Nat)
    (h : lookupValue st.values name = some ⟨REG_DWORD, d⟩) (hlen : d.length ≤ 1024) :
    BoolValue st name =
      if (uvarint d).2 < 0 ∨ 1 < (uvarint d).1
      then .error (.valueRange "Value not a bool")
      else .ok ((uvarint d).1 == 1) := by
  simp [BoolValue, regValue, h, Nat.not_lt.mpr hlen]

/-- Witness for C1's amended theorem: a stored byte `02` decodes to 2 and is
rejected with `ValueRangeError`. -/
theorem boolValue_range_amended_witness :
    BoolValue twoSt "b" = .error (.valueRange "Value not a bool") := by
  rw [boolValue_range_amended twoSt "b" [2] rfl (by decide)]
  decide

/-- C9: `binary.Uvarint` on empty bytes returns value 0 with byte count 0,
which passes the code's `n < 0` test, so `BoolValue` on a `REG_DWORD`-tagged
value with empty data succeeds with `false`; and on any `REG_DWORD`-tagged
value the only decode outcomes rejected (with `ValueRangeError`) are a
negative byte count (varint overflow) and a decoded value above 1. -/
theorem boolValue_empty_varint_behavior :
    uvarint [] = (0, 0) ∧
    (∀ st name, lookupValue st.values name = some ⟨REG_DWORD, []⟩ →
      BoolValue st name = .ok false) ∧
    (∀ st name d, lookupValue st.values name = some ⟨REG_DWORD, d⟩ →
      d.length ≤ 1024 →
      (BoolValue st name = .error (.valueRange "Value not a bool") ↔
        (uvarint d).2 < 0 ∨ 1 < (uvarint d).1)) := by
  refine ⟨rfl, fun st name h => by simp [BoolValue, regValue, h]; rfl,
    fun st name d h hlen => ?_⟩
  simp only [BoolValue, regValue, h, Nat.not_lt.mpr hlen, if_false]
  by_cases hc : (uvarint d).2 < 0 ∨ 1 < (uvarint d).1
  · simp [hc, REG_DWORD]
  · simp [hc, REG_DWORD]

/-- Witness for C9: the empty-data DWORD value yields `.ok false`, and the
single byte `02` is in the rejected range. -/
theorem boolValue_empty_varint_behavior_witness :
    BoolValue emptyDwordSt "x" = .ok false ∧
    (BoolValue twoSt "b" = .error (.valueRange "Value not a bool") ↔
      (uvarint [2]).2 < 0 ∨ 1 < (uvarint [2]).1) :=
  ⟨boolValue_empty_varint_behavior.2.1 emptyDwordSt "x" rfl,
    boolValue_empty_varint_behavior.2.2 twoSt "b" [2] rfl (by decide)⟩

/-- One step of the `Values` loop, with the inserted-or-skipped accumulator
exposed. -/
lemma valuesFold_cons (v : String × RegVal) (rest : List (String × RegVal))
    (m : String → Option String) :
    valuesFold (v :: rest) m =
      valuesFold rest
        (match valueLabel v.2.tag with
         | some lbl => fun kk => if kk = v.1 then some lbl else m kk
         | none => m) := rfl

/-- A name appearing in none of the enumerated entries is untouched by the
`Values` loop. -/
lemma valuesFold_not_mem (vs : List (String × RegVal)) (m : String → Option String)
    (name : String) (h : name ∉ vs.map Prod.fst) : valuesFold vs m name = m name := by
  induction vs generalizing m with
  | nil => rfl
  | cons v rest ih =>
    simp only [List.map_cons, List.mem_cons, not_or] at h
    rw [valuesFold_cons]
    cases hv : valueLabel v.2.tag with
    | none => exact ih m h.2
    | some lbl =>
      rw [ih _ h.2]
      simp [h.1]

/-- With distinct value names, the map built by the `Values` loop sends each
name to the label of its stored tag when that label exists, and otherwise
leaves the accumulator's answer. -/
lemma valuesFold_lookup (vs : List (String × RegVal))
    (hnd : (vs.map Prod.fst).Nodup) (m : String → Option String) (name : String) :
    valuesFold vs m name =
      ((lookupValue vs name).bind fun rv => valueLabel rv.tag).or (m name) := by
  induction vs generalizing m with
  | nil => simp [valuesFold, lookupValue]
  | cons v rest ih =>
    simp only [List.map_cons, List.nodup_cons] at hnd
    rw [valuesFold_cons]
    by_cases hname : v.1 = name
    · have hl : lookupValue (v :: rest) name = some v.2 := by
        simp [lookupValue, List.find?_cons, hname]
      rw [hl, Option.some_bind]
      cases hv : valueLabel v.2.tag with
      | none =>
        rw [Option.none_or]
        exact valuesFold_not_mem rest m name (hname ▸ hnd.1)
      | some lbl =>
        rw [valuesFold_not_mem rest _ name (hname ▸ hnd.1)]
        simp [hname]
    · have hb : (v.1 == name) = false := by simp [hname]
      have hl : lookupValue (v :: rest) name = lookupValue rest name := by
        simp [lookupValue, List.find?_cons, hb]
      rw [hl]
      cases hv : valueLabel v.2.tag with
      | none => exact ih hnd.2 m
      | some lbl =>
        rw [ih hnd.2]
        congr 1
        exact if_neg (fun hh => hname hh.symm)

/-- C3 counterexample: a key holding exactly one value, tagged 11
(`REG_QWORD`, unsupported).  `Values()` returns the empty map, so the map's
key set is empty while the set of value names under the key is `{q}` — the
two sets differ. -/
theorem values_unsupported_tag_cex :
    Values (⟨[], [("q", ⟨11, [0, 0, 0, 0, 0, 0, 0, 0]⟩)], 0, 0,
        fun _ => 0⟩ : KeyState) = .ok (fun _ => none) ∧
    (⟨[], [("q", ⟨11, [0, 0, 0, 0, 0, 0, 0, 0]⟩)], 0, 0,
        fun _ => 0⟩ : KeyState).values.map Prod.fst = ["q"] := by
  constructor
  · rfl
  · rfl

/-- C3 amended: with distinct value names that fit the enumeration buffers
and a succeeding `RegQueryInfoKey`, `Values()` returns the map sending each
name to the coarse label of its stored tag — "string", "uint32" or "binary"
for the tags `REG_SZ`, `REG_DWORD`, `REG_BINARY` — and containing no entry
for names whose tag is any other; so its key set equals the set of value
names whose stored tag is one of those three, not of all value names. -/
theorem values_map_amended (st : KeyState)
    (hnd : (st.values.map Prod.fst).Nodup) (hq : st.queryInfoStatus = 0)
    (hfit : ∀ v ∈ st.values, v.1.length ≤ 1023 ∧ v.2.data.length ≤ 1024) :
    Values st =
      .ok (fun name => (lookupValue st.values name).bind (fun rv => valueLabel rv.tag)) := by
  have hany : st.values.any (fun v => 1023 < v.1.length ∨ 1024 < v.2.data.length) = false := by
    simp only [List.any_eq_false]
    intro v hv
    have := hfit v hv
    simp
    omega
  simp only [Values, hq, ne_eq, not_true_eq_false, if_false, hany,
    Bool.false_eq_true, decide_eq_true_eq]
  congr 1
  funext name
  rw [valuesFold_lookup st.values hnd (fun _ => none) name]
  simp

/-- Witness for C3's amended theorem: one value of each supported tag and one
unsupported; the returned map labels the three and omits the fourth. -/
theorem values_map_amended_witness :
    Values (⟨[], [("s", ⟨REG_SZ, [65, 0]⟩), ("d", ⟨REG_DWORD, [1, 0, 0, 0]⟩),
        ("bin", ⟨REG_BINARY, [7]⟩), ("q", ⟨11, []⟩)], 0, 0, fun _ => 0⟩ : KeyState) =
      .ok (fun name =>
        (lookupValue [("s", ⟨REG_SZ, [65, 0]⟩), ("d", ⟨REG_DWORD, [1, 0, 0, 0]⟩),
          ("bin", ⟨REG_BINARY, [7]⟩), ("q", ⟨11, []⟩)] name).bind
          (fun rv => valueLabel rv.tag)) := by
  exact values_map_amended _ (by decide) rfl (by decide)

/-- Truncation at the first NUL only depends on the part of the list up to a
position where a zero is known to occur. -/
lemma takeWhile_congr_of_zero (k : Nat) (l1 l2 : List Nat)
    (ht : l1.take k = l2.take k) (hz : ∃ j, j < k ∧ l1[j]? = some 0) :
    l1.takeWhile (fun v => v != 0) = l2.takeWhile (fun v => v != 0) := by
  induction k generalizing l1 l2 with
  | zero => rcases hz with ⟨j, hj, _⟩; omega
  | succ k ih =>
    cases l1 with
    | nil => rcases hz with ⟨j, _, hj⟩; simp at hj
    | cons a t1 =>
      cases l2 with
      | nil => simp at ht
      | cons b t2 =>
        simp only [List.take_succ_cons, List.cons.injEq] at ht
        obtain ⟨rfl, htk⟩ := ht
        by_cases ha : a = 0
        · subst ha; simp [List.takeWhile_cons]
        · rcases hz with ⟨j, hjk, hj⟩
          cases j with
          | zero => simp at hj; exact absurd hj ha
          | succ j =>
            simp only [List.getElem?_cons_succ] at hj
            rw [List.takeWhile_cons, List.takeWhile_cons,
              ih t1 t2 htk ⟨j, by omega, hj⟩]

/-- Inside the 1024-byte `data` array the buffer's content does not depend on
the adjacent stack memory. -/
lemma stringBuffer_eq_of_lt (d : List Nat) (junk : Nat → Nat) (i : Nat)
    (h : i < 1024) : stringBuffer d junk i = stringBuffer d (fun _ => 0) i := by
  unfold stringBuffer
  split_ifs <;> rfl

/-- When the value's data fits strictly inside the `data` array, the array's
last two bytes are zero, so code unit 511 is NUL. -/
lemma stringUnits_511_zero (d : List Nat) (junk : Nat → Nat)
    (hlen : d.length ≤ 1022) :
    (stringUnits (stringBuffer d junk))[511]? = some 0 := by
  rw [stringUnits, List.getElem?_map, List.getElem?_range (by omega : 511 < 1024)]
  simp only [Option.map_some', Option.some.injEq]
  unfold stringBuffer
  have h2a : ¬ (2 * 511 < d.length) := by omega
  have h2b : ¬ (2 * 511 + 1 < d.length) := by omega
  simp only [h2a, if_false, h2b]
  norm_num

/-- The first 512 code units are computed from the `data` array alone. -/
lemma stringUnits_take_512 (d : List Nat) (junk : Nat → Nat) :
    (stringUnits (stringBuffer d junk)).take 512 =
      (stringUnits (stringBuffer d (fun _ => 0))).take 512 := by
  apply List.ext_getElem?
  intro n
  simp only [List.getElem?_take]
  by_cases hn : n < 512
  · simp only [hn, if_true, stringUnits, List.getElem?_map,
      List.getElem?_range (by omega : n < 1024), Option.map_some', Option.some.injEq]
    rw [stringBuffer_eq_of_lt d junk (2 * n) (by omega),
      stringBuffer_eq_of_lt d junk (2 * n + 1) (by omega)]
  · simp [hn]

/-- C6: `StringValue` fails with a `TypeMismatchError` whenever the stored
tag is not `REG_SZ`, and on a `REG_SZ`-tagged value whose data is nonempty
and fits strictly inside the local buffer it succeeds with the UTF-16 decode
of the value's own bytes (NUL-padded) — the result does not depend on the
memory beyond them. -/
theorem stringValue_spec :
    (∀ st name tag d, lookupValue st.values name = some ⟨tag, d⟩ →
      d.length ≤ 1024 → tag ≠ REG_SZ →
      StringValue st name = .error (.typeMismatch "Registry key not a string")) ∧
    (∀ st name d, lookupValue st.values name = some ⟨REG_SZ, d⟩ →
      0 < d.length → d.length ≤ 1022 →
      StringValue st name = .ok (stringDecodeOfData d)) := by
  constructor
  · intro st name tag d h hlen htag
    simp [StringValue, regValue, h, Nat.not_lt.mpr hlen, htag]
  · intro st name d h h0 hlen
    have hfits : ¬ (1024 < d.length) := by omega
    have hne : ¬ (d.length = 0) := by omega
    simp only [StringValue, regValue, h, hfits, if_false, REG_SZ, ne_eq,
      not_true_eq_false, hne, if_true, stringDecodeOfData, utf16ToString]
    rw [takeWhile_congr_of_zero 512 _ _ (stringUnits_take_512 d st.stackJunk)
      ⟨511, by omega, stringUnits_511_zero d st.stackJunk hlen⟩]

/-- Witness for C6: with nonzero junk beyond the buffer, the stored UTF-16
bytes of "AB" decode independently of it, and a DWORD-tagged value is a type
mismatch. -/
theorem stringValue_spec_witness :
    StringValue (⟨[], [("s", ⟨REG_SZ, [65, 0, 66, 0]⟩), ("n", ⟨REG_DWORD, [1, 0, 0, 0]⟩)],
        0, 0, fun _ => 7⟩ : KeyState) "s" = .ok (stringDecodeOfData [65, 0, 66, 0]) ∧
    StringValue (⟨[], [("s", ⟨REG_SZ, [65, 0, 66, 0]⟩), ("n", ⟨REG_DWORD, [1, 0, 0, 0]⟩)],
        0, 0, fun _ => 7⟩ : KeyState) "n" =
      .error (.typeMismatch "Registry key not a string") :=
  ⟨stringValue_spec.2 _ "s" [65, 0, 66, 0] rfl (by decide) (by decide),
    stringValue_spec.1 _ "n" REG_DWORD [1, 0, 0, 0] rfl (by decide) (by decide)⟩

/-- A memory whose bytes are all zero. -/
def memZero : Nat → Nat := fun _ => 0

/-- A memory that is zero everywhere except for a 1 at byte `i`. -/
def memOne (i : Nat) : Nat → Nat := fun j => if j = i then 1 else 0

/-- C10: `StringValue` dereferences `&d[0]` before any length check, so a
`REG_SZ`-tagged value with empty returned data makes it panic (abort); and
the cast to `[1024]uint16` reads a fixed 2048-byte window regardless of the
returned length `dlen` — for every `dlen < 2048` the code-unit list depends
on byte `dlen`, a byte beyond the returned data (two memories agreeing on all
bytes below `dlen` can yield different unit lists). -/
theorem stringValue_oob_behavior :
    (∀ st name, lookupValue st.values name = some ⟨REG_SZ, []⟩ →
      StringValue st name = .abort) ∧
    (∀ dlen, dlen < 2048 →
      (∀ j, j < dlen → memZero j = memOne dlen j) ∧
      stringUnits memZero ≠ stringUnits (memOne dlen)) := by
  constructor
  · intro st name h
    simp [StringValue, regValue, h]
  · intro dlen hlt
    constructor
    · intro j hj
      unfold memZero memOne
      rw [if_neg (by omega)]
    · intro heq
      have h2 := congrArg (fun l => l[dlen / 2]?) heq
      simp only [stringUnits, List.getElem?_map,
        List.getElem?_range (by omega : dlen / 2 < 1024), Option.map_some',
        Option.some.injEq] at h2
      unfold memZero memOne at h2
      split_ifs at h2 <;> omega

/-- Witness for C10: a key with an empty `REG_SZ` value makes `StringValue`
abort, and the unit list depends on byte 2047, beyond any possible returned
data length. -/
theorem stringValue_oob_behavior_witness :
    StringValue (⟨[], [("s", ⟨REG_SZ, []⟩)], 0, 0, fun _ => 0⟩ : KeyState) "s" = .abort ∧
    stringUnits memZero ≠ stringUnits (memOne 2047) :=
  ⟨stringValue_oob_behavior.1 _ "s" rfl,
    (stringValue_oob_behavior.2 2047 (by omega)).2⟩

end Reg
